import Mathlib

/-!
Shallow embedding of the credential-store and toolbar logic of
`src/components/ApiKeySettings.tsx` and `src/components/Toolbar.tsx`.

JavaScript strings are modelled as lists of UTF-16 code units (`List Nat`);
the browser builtins `btoa` / `atob` are modelled as `Option`-valued
functions (`none` = the builtin throws), following the WHATWG
forgiving-base64 algorithm; `localStorage` is modelled as a function from
keys to optionally stored strings.  Event handlers that set component
state are modelled as functions returning the ordered list of
`(status, message)` pairs they set, together with their externally
observable effects (store writes, `updateApiKey` calls, scheduled
`onClose` timeouts).
-/

/-- A JavaScript string, modelled as its list of UTF-16 code units. -/
abbrev Str := List Nat

/-- Code units of a Lean string literal.  Every literal used below consists
of BMP code points, for which code point and UTF-16 code unit coincide. -/
def strCodes (s : String) : Str := s.toList.map Char.toNat

/-- The fixed salt constant `SALT = 'GH_SMART_SECRET_SALT_2025'`
(ApiKeySettings.tsx line 10). -/
def SALT : Str := strCodes "GH_SMART_SECRET_SALT_2025"

/-- The repeating-key XOR keystream of `encryptKey` / `decryptKey`:
`c.charCodeAt(0) ^ saltChars[i % saltChars.length].charCodeAt(0)` applied
to each character, written as a recursion carrying the index `i`. -/
def xorSalt : Nat → Str → Str
  | _, [] => []
  | i, c :: rest => (c ^^^ SALT.getD (i % SALT.length) 0) :: xorSalt (i + 1) rest

/-- The standard Base64 alphabet used by `btoa` / `atob`. -/
def B64_ALPHABET : Str :=
  strCodes "ABCDEFGHIJKLMNOPQRSTUVWXYZabcdefghijklmnopqrstuvwxyz0123456789+/"

/-- The alphabet character for a sextet value. -/
def b64char (n : Nat) : Nat := B64_ALPHABET.getD n 0

/-- The sextet value of an alphabet character; `none` for a character
outside the alphabet. -/
def b64val (c : Nat) : Option Nat :=
  (List.range 64).find? (fun n => b64char n = c)

/-- Byte triples to sextet quadruples, with the partial final group of
`btoa`: two sextets for a trailing single byte, three for a trailing
pair, low bits padded with zeros. -/
def toSextets : List Nat → List Nat
  | a :: b :: c :: rest =>
      a / 4 :: ((a % 4) * 16 + b / 16) :: ((b % 16) * 4 + c / 64) :: c % 64 ::
        toSextets rest
  | [a, b] => [a / 4, (a % 4) * 16 + b / 16, (b % 16) * 4]
  | [a] => [a / 4, (a % 4) * 16]
  | [] => []

/-- Sextet quadruples back to byte triples, with the forgiving-base64
treatment of a partial final group: two leftover sextets yield one byte,
three yield two, and the leftover low bits are discarded.  (A single
leftover sextet is rejected by `atob` before this function is reached.) -/
def fromSextets : List Nat → List Nat
  | s1 :: s2 :: s3 :: s4 :: rest =>
      (s1 * 4 + s2 / 16) :: ((s2 % 16) * 16 + s3 / 4) :: ((s3 % 4) * 64 + s4) ::
        fromSextets rest
  | [s1, s2, s3] => [s1 * 4 + s2 / 16, (s2 % 16) * 16 + s3 / 4]
  | [s1, s2] => [s1 * 4 + s2 / 16]
  | [_] => []
  | [] => []

/-- Padding of a Base64 character sequence with `=` (code 61) to a
multiple of four characters. -/
def padTo4 (chars : Str) : Str :=
  chars ++ List.replicate ((4 - chars.length % 4) % 4) 61

/-- `btoa`: fails (throws `InvalidCharacterError`) when some code unit of
the argument exceeds 255; otherwise emits the alphabet characters of the
sextets, `=`-padded to a multiple of four characters. -/
def btoa (bytes : List Nat) : Option Str :=
  if bytes.all (· < 256) then some (padTo4 ((toSextets bytes).map b64char))
  else none

/-- ASCII whitespace removed by forgiving-base64 decoding. -/
def isB64Ws (c : Nat) : Bool := c = 9 || c = 10 || c = 12 || c = 13 || c = 32

/-- Removal of up to two trailing `=` padding characters. -/
def stripPad (t : Str) : Str :=
  match t.reverse with
  | c1 :: c2 :: r =>
      if c1 = 61 then (if c2 = 61 then r.reverse else (c2 :: r).reverse) else t
  | c1 :: r => if c1 = 61 then r.reverse else t
  | [] => t

/-- Step two of forgiving-base64 decoding: padding is only recognised when
the whitespace-stripped input length is a multiple of four. -/
def stripIfAligned (t : Str) : Str := if t.length % 4 = 0 then stripPad t else t

/-- Steps three to five of forgiving-base64 decoding: fail when the length
is `1 mod 4` or when any character is outside the alphabet; otherwise
decode the sextets. -/
def atobCore (t : Str) : Option (List Nat) :=
  if t.length % 4 = 1 then none
  else if t.all (fun c => (b64val c).isSome) then
    some (fromSextets (t.map (fun c => (b64val c).getD 0)))
  else none

/-- `atob`, following the WHATWG forgiving-base64 decode. -/
def atob (s : Str) : Option (List Nat) :=
  atobCore (stripIfAligned (s.filter (fun c => !isB64Ws c)))

/-- `encryptKey` (ApiKeySettings.tsx lines 13–25): XOR each code unit with
the salt keystream and Base64-encode the result; if `btoa` throws, the
`catch` returns the empty string. -/
def encryptKey (key : Str) : Str :=
  match btoa (xorSalt 0 key) with
  | some s => s
  | none => []

/-- `decryptKey` (ApiKeySettings.tsx lines 27–40): Base64-decode and XOR
each byte with the salt keystream; if `atob` throws, the `catch` returns
the empty string. -/
def decryptKey (encrypted : Str) : Str :=
  match atob encrypted with
  | some decoded => xorSalt 0 decoded
  | none => []

/-- The browser `localStorage`, as a map from keys to optionally stored
string values (`none` = no record under that key). -/
abbrev LocalStorage := Str → Option Str

/-- The fixed storage key `STORAGE_KEY = 'gh_smart_saenggibu_key_enc'`
(ApiKeySettings.tsx line 9). -/
def STORAGE_KEY : Str := strCodes "gh_smart_saenggibu_key_enc"

/-- `localStorage.getItem`. -/
def getItem (st : LocalStorage) (k : Str) : Option Str := st k

/-- `localStorage.setItem`: unconditionally overwrites the value at `k`. -/
def setItem (st : LocalStorage) (k v : Str) : LocalStorage :=
  fun k2 => if k2 = k then some v else st k2

/-- A `localStorage` holding no records. -/
def emptyStore : LocalStorage := fun _ => none

/-- `loadSavedApiKey` (ApiKeySettings.tsx lines 42–48): read the record
under `STORAGE_KEY`; the JavaScript truthiness test `if (saved)` passes
only for a present, non-empty record, in which case the record is
decrypted; otherwise the empty string is returned. -/
def loadSavedApiKey (st : LocalStorage) : Str :=
  match getItem st STORAGE_KEY with
  | some saved => if saved ≠ [] then decryptKey saved else []
  | none => []

/-- The whitespace set of JavaScript `String.prototype.trim`: WhiteSpace
(TAB, VT, FF, SP, NBSP, ZWNBSP and Unicode space separators) together
with the line terminators LF, CR, LS, PS. -/
def isJsWhitespace (c : Nat) : Bool :=
  c = 9 || c = 10 || c = 11 || c = 12 || c = 13 || c = 32 || c = 160 ||
  c = 5760 || (decide (8192 ≤ c) && decide (c ≤ 8202)) || c = 8232 ||
  c = 8233 || c = 8239 || c = 8287 || c = 12288 || c = 65279

/-- JavaScript `String.prototype.trim`: drop leading and trailing
whitespace. -/
def trimJS (s : Str) : Str :=
  ((s.dropWhile isJsWhitespace).reverse.dropWhile isJsWhitespace).reverse

/-- The dialog's connection status (`useState` in ApiKeySettings.tsx
line 52). -/
inductive Status where
  | idle
  | testing
  | success
  | error
deriving DecidableEq

/-- Message set on the empty-input guard of `handleTest` (line 66). -/
def msgEnterKey : Str := strCodes "API 키를 입력해주세요."

/-- Message set while the connection test is running (line 71). -/
def msgTestingConn : Str := strCodes "연결 테스트 중..."

/-- Message set when the connection test succeeds (line 77). -/
def msgConnSuccess : Str := strCodes "연결 성공!"

/-- Message set when the connection test fails (line 80). -/
def msgConnFail : Str := strCodes "연결 실패. API 키를 확인해주세요."

/-- Message set on the empty-input guard of `handleSave` (line 87). -/
def msgNoKeyToSave : Str := strCodes "저장할 API 키가 없습니다."

/-- Message set after a successful save (line 96). -/
def msgSavedSecurely : Str := strCodes "암호화되어 안전하게 저장되었습니다."

/-- Observable outcome of one `handleTest` invocation: the `(status,
message)` pairs set, in order, and how many times `testConnection` was
awaited. -/
structure TestResult where
  trace : List (Status × Str)
  verifierCalls : Nat
deriving DecidableEq

/-- `handleTest` (ApiKeySettings.tsx lines 63–82), with the resolved value
of the awaited `testConnection` call passed in as `isConnected`: the
empty-trim guard sets `error` and returns without any network call;
otherwise `testing` is set, the verifier is awaited once, and its result
selects `success` or `error`. -/
def handleTest (apiKey : Str) (isConnected : Bool) : TestResult :=
  if trimJS apiKey = [] then
    { trace := [(Status.error, msgEnterKey)], verifierCalls := 0 }
  else
    { trace := [(Status.testing, msgTestingConn),
        if isConnected then (Status.success, msgConnSuccess)
        else (Status.error, msgConnFail)],
      verifierCalls := 1 }

/-- Observable outcome of one `handleSave` invocation: the resulting
store, the arguments of `updateApiKey` calls in order, the `(status,
message)` pairs set in order, and the delays (ms) of scheduled `onClose`
timeouts. -/
structure SaveResult where
  store : LocalStorage
  updateApiKeyCalls : List Str
  trace : List (Status × Str)
  scheduledCloses : List Nat

/-- `handleSave` (ApiKeySettings.tsx lines 84–102): the empty-trim guard
sets `error` and returns without persisting; otherwise the encrypted key
is written under `STORAGE_KEY`, `updateApiKey` is called with the
plaintext key, `success` is set, and `onClose` is scheduled after 1500 ms.
Nothing in the `try` block of the model can throw (`encryptKey` catches
internally), so the `catch` branch is not reachable here. -/
def handleSave (apiKey : Str) (st : LocalStorage) : SaveResult :=
  if trimJS apiKey = [] then
    { store := st, updateApiKeyCalls := [],
      trace := [(Status.error, msgNoKeyToSave)], scheduledCloses := [] }
  else
    { store := setItem st STORAGE_KEY (encryptKey apiKey),
      updateApiKeyCalls := [apiKey],
      trace := [(Status.success, msgSavedSecurely)],
      scheduledCloses := [1500] }

/-- One digit of JavaScript `parseInt` in a given radix. -/
def digitVal (radix : Nat) (c : Nat) : Option Nat :=
  if 48 ≤ c ∧ c ≤ 57 ∧ c - 48 < radix then some (c - 48)
  else if 65 ≤ c ∧ c ≤ 90 ∧ c - 55 < radix then some (c - 55)
  else if 97 ≤ c ∧ c ≤ 122 ∧ c - 87 < radix then some (c - 87)
  else none

/-- The longest leading run of digits of the given radix. -/
def takeDigits (radix : Nat) : Str → List Nat
  | [] => []
  | c :: rest =>
    match digitVal radix c with
    | some d => d :: takeDigits radix rest
    | none => []

/-- Value of a digit sequence in the given radix. -/
def foldDigits (radix : Nat) (ds : List Nat) : Nat :=
  ds.foldl (fun acc d => acc * radix + d) 0

/-- Digit parsing of JavaScript `parseInt`: `NaN` (here `none`) when no
leading digit exists, otherwise the signed value of the leading digits. -/
def parseIntDigits (sign : Int) (radix : Nat) (t : Str) : Option Int :=
  match takeDigits radix t with
  | [] => none
  | ds => some (sign * Int.ofNat (foldDigits radix ds))

/-- Radix selection of JavaScript `parseInt` with no radix argument:
a `0x` / `0X` prefix selects 16, anything else 10. -/
def parseIntCore (sign : Int) (t : Str) : Option Int :=
  match t with
  | 48 :: 120 :: r => parseIntDigits sign 16 r
  | 48 :: 88 :: r => parseIntDigits sign 16 r
  | _ => parseIntDigits sign 10 t

/-- JavaScript `parseInt(s)` (no radix argument): skip leading whitespace,
read an optional sign, then parse the longest digit run; `none` = `NaN`. -/
def parseIntJS (s : Str) : Option Int :=
  match s.dropWhile isJsWhitespace with
  | 43 :: r => parseIntCore 1 r
  | 45 :: r => parseIntCore (-1) r
  | t => parseIntCore 1 t

/-- JavaScript `x || 0` applied to a `parseInt` result: `NaN` and `0` are
falsy and yield `0`; any other number is returned unchanged. -/
def jsOrZero (v : Option Int) : Int :=
  match v with
  | none => 0
  | some n => if n = 0 then 0 else n

/-- The row-count `onChange` handler (Toolbar.tsx line 149):
`Math.max(1, parseInt(e.target.value) || 0)` becomes the new
`rowCountInput` state. -/
def rowCountOnChange (inputValue : Str) : Int :=
  max 1 (jsOrZero (parseIntJS inputValue))

/-- The add-rows button (Toolbar.tsx line 154) calls `onAddRows` with the
current `rowCountInput` state; this is the argument it passes. -/
def addRowsClick (rowCountInput : Int) : Int := rowCountInput

-- Kernel-evaluated sanity checks of the embedding against the browser
-- behaviour of the source: btoa('\x06\x0a') = 'Bgo=' for the key 'AB'.
example : encryptKey (strCodes "AB") = strCodes "Bgo=" := by decide
example : decryptKey (encryptKey (strCodes "AB")) = strCodes "AB" := by decide
example : encryptKey [256] = [] := by decide
example : atob (strCodes "!") = none := by decide

/-- Decoding an alphabet character inverts encoding a sextet. -/
theorem b64val_b64char : ∀ n, n < 64 → b64val (b64char n) = some n := by decide

/-- No alphabet character is the padding character `=`. -/
theorem b64char_ne_pad : ∀ n, n < 64 → b64char n ≠ 61 := by decide

/-- No alphabet character is forgiving-base64 whitespace. -/
theorem b64char_not_ws : ∀ n, n < 64 → isB64Ws (b64char n) = false := by decide

/-- Sextet decoding inverts sextet encoding on byte sequences. -/
theorem fromSextets_toSextets (l : List Nat) (h : ∀ x ∈ l, x < 256) :
    fromSextets (toSextets l) = l := by
  induction l using toSextets.induct with
  | case1 a b c rest ih =>
      simp only [toSextets, fromSextets, List.cons.injEq]
      have ha : a < 256 := h a (by simp)
      have hb : b < 256 := h b (by simp)
      have hc : c < 256 := h c (by simp)
      refine ⟨by omega, by omega, by omega, ih (fun x hx => h x (by simp [hx]))⟩
  | case2 a b =>
      have ha : a < 256 := h a (by simp)
      have hb : b < 256 := h b (by simp)
      simp only [toSextets, fromSextets, List.cons.injEq]
      refine ⟨by omega, by omega, trivial⟩
  | case3 a =>
      have ha : a < 256 := h a (by simp)
      simp only [toSextets, fromSextets, List.cons.injEq]
      exact ⟨by omega, trivial⟩
  | case4 => rfl

/-- Sextets of bytes are sextets. -/
theorem toSextets_lt (l : List Nat) (h : ∀ x ∈ l, x < 256) :
    ∀ x ∈ toSextets l, x < 64 := by
  induction l using toSextets.induct with
  | case1 a b c rest ih =>
      have ha : a < 256 := h a (by simp)
      have hb : b < 256 := h b (by simp)
      have hc : c < 256 := h c (by simp)
      simp only [toSextets, List.mem_cons]
      rintro x (rfl | rfl | rfl | rfl | hx)
      · omega
      · omega
      · omega
      · omega
      · exact ih (fun y hy => h y (by simp [hy])) x hx
  | case2 a b =>
      have ha : a < 256 := h a (by simp)
      have hb : b < 256 := h b (by simp)
      simp only [toSextets, List.mem_cons]
      rintro x (rfl | rfl | rfl | hx)
      · omega
      · omega
      · omega
      · simp at hx
  | case3 a =>
      have ha : a < 256 := h a (by simp)
      simp only [toSextets, List.mem_cons]
      rintro x (rfl | rfl | hx)
      · omega
      · omega
      · simp at hx
  | case4 => simp [toSextets]

/-- The sextet count of a byte sequence is never `1 mod 4`. -/
theorem toSextets_length_mod (l : List Nat) : (toSextets l).length % 4 ≠ 1 := by
  induction l using toSextets.induct with
  | case1 a b c rest ih => simp only [toSextets, List.length_cons]; omega
  | case2 a b => simp [toSextets]
  | case3 a => simp [toSextets]
  | case4 => simp [toSextets]

/-- `stripPad` leaves a string without trailing `=` unchanged. -/
theorem stripPad_no_pad (chars : Str) (h : ∀ x ∈ chars, x ≠ 61) :
    stripPad chars = chars := by
  unfold stripPad
  cases hc : chars.reverse with
  | nil => rfl
  | cons c1 r =>
      have h1 : c1 ≠ 61 := h c1 (List.mem_reverse.mp (hc ▸ List.mem_cons_self c1 r))
      cases r with
      | nil => simp [h1]
      | cons c2 r2 => simp [h1]

/-- `stripPad` removes exactly the padding appended to a pad-free string. -/
theorem stripPad_append (chars : Str) (k : Nat) (hk : k ≤ 2)
    (h : ∀ x ∈ chars, x ≠ 61) :
    stripPad (chars ++ List.replicate k 61) = chars := by
  interval_cases k
  · simpa using stripPad_no_pad chars h
  · unfold stripPad
    have e1 : (chars ++ List.replicate 1 61).reverse = 61 :: chars.reverse := by
      simp [List.reverse_append]
    rw [e1]
    cases hc : chars.reverse with
    | nil => simp [List.reverse_eq_nil_iff.mp hc]
    | cons c2 r2 =>
        have h2 : c2 ≠ 61 := h c2 (List.mem_reverse.mp (hc ▸ List.mem_cons_self c2 r2))
        simp only [hc, h2, if_true, if_false, reduceIte]
        rw [← hc, List.reverse_reverse]
  · unfold stripPad
    have e2 : (chars ++ List.replicate 2 61).reverse = 61 :: 61 :: chars.reverse := by
      simp [List.reverse_append, List.replicate]
    rw [e2]
    simp [List.reverse_reverse]

/-- Forgiving-base64 decoding inverts padded Base64 encoding of any byte
sequence. -/
theorem atob_padTo4 (bytes : List Nat) (h : ∀ x ∈ bytes, x < 256) :
    atob (padTo4 ((toSextets bytes).map b64char)) = some bytes := by
  set chars := (toSextets bytes).map b64char with hchars
  have hmem : ∀ c ∈ chars, ∃ n, n < 64 ∧ c = b64char n := by
    intro c hc
    rw [hchars, List.mem_map] at hc
    obtain ⟨n, hn, rfl⟩ := hc
    exact ⟨n, toSextets_lt bytes h n hn, rfl⟩
  have hne61 : ∀ c ∈ chars, c ≠ 61 := by
    intro c hc
    obtain ⟨n, hn, rfl⟩ := hmem c hc
    exact b64char_ne_pad n hn
  have hnws : ∀ c ∈ padTo4 chars, (!isB64Ws c) = true := by
    intro c hc
    rw [padTo4, List.mem_append] at hc
    rcases hc with hc | hc
    · obtain ⟨n, hn, rfl⟩ := hmem c hc
      simp [b64char_not_ws n hn]
    · rw [List.mem_replicate] at hc
      simp [hc.2, isB64Ws]
  have hfilter : (padTo4 chars).filter (fun c => !isB64Ws c) = padTo4 chars :=
    List.filter_eq_self.mpr hnws
  have hmod : chars.length % 4 ≠ 1 := by
    rw [hchars, List.length_map]; exact toSextets_length_mod bytes
  have hstrip : stripIfAligned (padTo4 chars) = chars := by
    have hlen : (padTo4 chars).length % 4 = 0 := by
      rw [padTo4, List.length_append, List.length_replicate]; omega
    rw [stripIfAligned, if_pos hlen, padTo4]
    exact stripPad_append chars _ (by omega) hne61
  have hall : chars.all (fun c => (b64val c).isSome) = true := by
    rw [List.all_eq_true]
    intro c hc
    obtain ⟨n, hn, rfl⟩ := hmem c hc
    rw [b64val_b64char n hn]
    rfl
  have hmap : chars.map (fun c => (b64val c).getD 0) = toSextets bytes := by
    rw [hchars, List.map_map]
    have hcong : ∀ n ∈ toSextets bytes,
        ((fun c => (b64val c).getD 0) ∘ b64char) n = id n := by
      intro n hn
      have hn64 := toSextets_lt bytes h n hn
      simp [Function.comp, b64val_b64char n hn64]
    rw [List.map_congr_left hcong, List.map_id]
  rw [atob, hfilter, hstrip, atobCore, if_neg hmod, if_pos hall, hmap,
    fromSextets_toSextets bytes h]

/-- The XOR keystream is an involution at every starting index. -/
theorem xorSalt_xorSalt (s : Str) : ∀ i, xorSalt i (xorSalt i s) = s := by
  induction s with
  | nil => intro i; rfl
  | cons c rest ih =>
      intro i
      simp [xorSalt, Nat.xor_cancel_right, ih]

/-- `btoa` succeeds on byte sequences and returns the padded encoding. -/
theorem btoa_of_lt (bytes : List Nat) (h : ∀ x ∈ bytes, x < 256) :
    btoa bytes = some (padTo4 ((toSextets bytes).map b64char)) := by
  rw [btoa, if_pos]
  rw [List.all_eq_true]
  intro x hx
  simpa using h x hx

/-- Round trip of the obfuscation transform, in the form shared by the
claims below: when every keystream byte is representable, decryption
inverts encryption. -/
theorem decryptKey_encryptKey (s : Str) (h : ∀ x ∈ xorSalt 0 s, x < 256) :
    decryptKey (encryptKey s) = s := by
  rw [encryptKey, btoa_of_lt _ h]
  show decryptKey (padTo4 ((toSextets (xorSalt 0 s)).map b64char)) = s
  rw [decryptKey, atob_padTo4 _ h]
  exact xorSalt_xorSalt s 0

/-- C1: Round-trip of the obfuscation transform.  For every string whose
code units, and their XOR with the salt keystream, lie in the
representable byte range, `decryptKey (encryptKey s) = s`. -/
theorem c1_roundtrip_encrypt_decrypt (s : Str)
    (h1 : ∀ x ∈ s, x < 256) (h2 : ∀ x ∈ xorSalt 0 s, x < 256) :
    decryptKey (encryptKey s) = s :=
  decryptKey_encryptKey s h2

/-- Witness for C1 at the concrete key `"AIzaSyTest123"`. -/
theorem c1_witness :
    (∀ x ∈ strCodes "AIzaSyTest123", x < 256) ∧
    (∀ x ∈ xorSalt 0 (strCodes "AIzaSyTest123"), x < 256) ∧
    decryptKey (encryptKey (strCodes "AIzaSyTest123")) = strCodes "AIzaSyTest123" :=
  ⟨by decide, by decide,
    c1_roundtrip_encrypt_decrypt (strCodes "AIzaSyTest123") (by decide) (by decide)⟩

/-- C3: Silent-degradation policy.  When the internal encoding step of
`encryptKey` raises (`btoa` fails on the keystream bytes), `encryptKey`
returns the empty string; when decoding raises (`atob` fails),
`decryptKey` returns the empty string. -/
theorem c3_silent_degradation (s e : Str)
    (h1 : btoa (xorSalt 0 s) = none) (h2 : atob e = none) :
    encryptKey s = [] ∧ decryptKey e = [] := by
  constructor
  · rw [encryptKey, h1]
  · rw [decryptKey, h2]

/-- Witness for C3: the code unit 256 makes `btoa` raise, and `"!"` is
invalid Base64. -/
theorem c3_witness :
    btoa (xorSalt 0 [256]) = none ∧ atob (strCodes "!") = none ∧
    encryptKey [256] = [] ∧ decryptKey (strCodes "!") = [] := by
  refine ⟨by decide, by decide, ?_⟩
  exact c3_silent_degradation [256] (strCodes "!") (by decide) (by decide)

/-- C4: Loader semantics.  For every state of the key-value store,
`loadSavedApiKey` returns the empty string when no record is present
under the fixed key, and `decryptKey record` when a record is present
(for the empty record the truthiness guard short-circuits, but
`decryptKey [] = []`, so the equation holds there too). -/
theorem c4_loader_semantics (st : LocalStorage) :
    (getItem st STORAGE_KEY = none → loadSavedApiKey st = []) ∧
    (∀ r, getItem st STORAGE_KEY = some r → loadSavedApiKey st = decryptKey r) := by
  constructor
  · intro h0
    rw [loadSavedApiKey, h0]
  · intro r hr
    rw [loadSavedApiKey, hr]
    by_cases hre : r = []
    · subst hre
      decide
    · simp only [hre, ne_eq, not_false_iff, if_true, reduceIte]

/-- Witness for C4 on an absent and on a present record. -/
theorem c4_witness :
    loadSavedApiKey emptyStore = [] ∧
    loadSavedApiKey (setItem emptyStore STORAGE_KEY (strCodes "Bgo=")) =
      decryptKey (strCodes "Bgo=") :=
  ⟨(c4_loader_semantics emptyStore).1 (by decide),
    (c4_loader_semantics (setItem emptyStore STORAGE_KEY (strCodes "Bgo="))).2
      (strCodes "Bgo=") (by decide)⟩

/-- C5: Empty-input guard.  For every empty or whitespace-only input,
`handleTest` never calls the Connectivity Verifier and `handleSave` never
writes the store and never calls `updateApiKey`; both set the `error`
state with a validation message. -/
theorem c5_empty_input_guard (s : Str) (h : trimJS s = []) :
    (∀ r : Bool, (handleTest s r).verifierCalls = 0 ∧
      (handleTest s r).trace = [(Status.error, msgEnterKey)]) ∧
    (∀ st : LocalStorage, (handleSave s st).store = st ∧
      (handleSave s st).updateApiKeyCalls = [] ∧
      (handleSave s st).trace = [(Status.error, msgNoKeyToSave)]) := by
  constructor
  · intro r
    rw [handleTest, if_pos h]
    exact ⟨rfl, rfl⟩
  · intro st
    rw [handleSave, if_pos h]
    exact ⟨rfl, rfl, rfl⟩

/-- Witness for C5 at the whitespace-only input `" "`. -/
theorem c5_witness :
    trimJS (strCodes " ") = [] ∧
    ((handleTest (strCodes " ") true).verifierCalls = 0 ∧
      (handleTest (strCodes " ") true).trace = [(Status.error, msgEnterKey)]) ∧
    ((handleSave (strCodes " ") emptyStore).store = emptyStore ∧
      (handleSave (strCodes " ") emptyStore).updateApiKeyCalls = [] ∧
      (handleSave (strCodes " ") emptyStore).trace = [(Status.error, msgNoKeyToSave)]) :=
  ⟨by decide, (c5_empty_input_guard (strCodes " ") (by decide)).1 true,
    (c5_empty_input_guard (strCodes " ") (by decide)).2 emptyStore⟩

/-- C6 as stated is refuted: `" "` is a non-empty input, yet `handleTest`
never sets `testing`, never awaits the Connectivity Verifier, and goes
straight to `error` even when the verifier would resolve `true`. -/
theorem c6_counterexample :
    strCodes " " ≠ [] ∧
    (handleTest (strCodes " ") true).verifierCalls = 0 ∧
    (handleTest (strCodes " ") true).trace ≠
      [(Status.testing, msgTestingConn), (Status.success, msgConnSuccess)] := by
  refine ⟨by decide, by decide, by decide⟩

/-- C6 amended: for every input that is non-empty after trimming
whitespace, `handleTest` first sets `testing`, awaits the Connectivity
Verifier exactly once, and sets `success` when it resolves `true` and
`error` when it resolves `false`. -/
theorem c6_test_state_transitions (s : Str) (h : trimJS s ≠ []) (r : Bool) :
    (handleTest s r).verifierCalls = 1 ∧
    (handleTest s r).trace =
      [(Status.testing, msgTestingConn),
        if r then (Status.success, msgConnSuccess)
        else (Status.error, msgConnFail)] := by
  rw [handleTest, if_neg h]
  exact ⟨rfl, rfl⟩

/-- Witness for the amended C6 at the concrete input `"abc123"`, for both
verifier outcomes. -/
theorem c6_witness :
    trimJS (strCodes "abc123") ≠ [] ∧
    ((handleTest (strCodes "abc123") true).verifierCalls = 1 ∧
      (handleTest (strCodes "abc123") true).trace =
        [(Status.testing, msgTestingConn), (Status.success, msgConnSuccess)]) ∧
    ((handleTest (strCodes "abc123") false).verifierCalls = 1 ∧
      (handleTest (strCodes "abc123") false).trace =
        [(Status.testing, msgTestingConn), (Status.error, msgConnFail)]) := by
  refine ⟨by decide, ?_, ?_⟩
  · have h := c6_test_state_transitions (strCodes "abc123") (by decide) true
    simpa using h
  · have h := c6_test_state_transitions (strCodes "abc123") (by decide) false
    simpa using h

/-- C7 as stated is refuted: `" "` is a non-empty input, yet `handleSave`
persists nothing, never calls `updateApiKey`, and schedules no `onClose`
timeout. -/
theorem c7_counterexample :
    strCodes " " ≠ [] ∧
    getItem (handleSave (strCodes " ") emptyStore).store STORAGE_KEY = none ∧
    (handleSave (strCodes " ") emptyStore).updateApiKeyCalls = [] ∧
    (handleSave (strCodes " ") emptyStore).scheduledCloses = [] := by
  refine ⟨by decide, by decide, by decide, by decide⟩

/-- C7 amended: for every input that is non-empty after trimming
whitespace, `handleSave` writes the encoded credential under the fixed
key, pushes the plaintext credential to `updateApiKey`, sets the
`success` state, and schedules exactly one `onClose` invocation after
1500 ms. -/
theorem c7_save_then_close (s : Str) (st : LocalStorage) (h : trimJS s ≠ []) :
    (handleSave s st).store = setItem st STORAGE_KEY (encryptKey s) ∧
    (handleSave s st).updateApiKeyCalls = [s] ∧
    (handleSave s st).trace = [(Status.success, msgSavedSecurely)] ∧
    (handleSave s st).scheduledCloses = [1500] := by
  rw [handleSave, if_neg h]
  exact ⟨rfl, rfl, rfl, rfl⟩

/-- Witness for the amended C7 at the concrete input `"myKey42"`. -/
theorem c7_witness :
    trimJS (strCodes "myKey42") ≠ [] ∧
    ((handleSave (strCodes "myKey42") emptyStore).store =
        setItem emptyStore STORAGE_KEY (encryptKey (strCodes "myKey42")) ∧
      (handleSave (strCodes "myKey42") emptyStore).updateApiKeyCalls =
        [strCodes "myKey42"] ∧
      (handleSave (strCodes "myKey42") emptyStore).trace =
        [(Status.success, msgSavedSecurely)] ∧
      (handleSave (strCodes "myKey42") emptyStore).scheduledCloses = [1500]) :=
  ⟨by decide, c7_save_then_close (strCodes "myKey42") emptyStore (by decide)⟩

/-- The record written by a successful save loads back as the plaintext,
whenever the keystream bytes are representable. -/
theorem load_handleSave (b : Str) (st : LocalStorage)
    (hb : trimJS b ≠ []) (h2 : ∀ x ∈ xorSalt 0 b, x < 256) :
    loadSavedApiKey (handleSave b st).store = b := by
  have hs : (handleSave b st).store = setItem st STORAGE_KEY (encryptKey b) := by
    rw [handleSave, if_neg hb]
  have hg : getItem (setItem st STORAGE_KEY (encryptKey b)) STORAGE_KEY =
      some (encryptKey b) := by
    rw [getItem, setItem, if_pos rfl]
  rw [hs, loadSavedApiKey, hg]
  by_cases he : encryptKey b = []
  · exfalso
    have hd : decryptKey (encryptKey b) = b := decryptKey_encryptKey b h2
    rw [he] at hd
    have hnil : decryptKey [] = [] := by decide
    rw [hnil] at hd
    exact hb (by rw [← hd]; decide)
  · simp only [he, ne_eq, not_false_iff, if_true, reduceIte]
    exact decryptKey_encryptKey b h2

/-- C2 as stated is refuted: the character with code unit 256 is saved
(the guard passes), the Persisted Record is present (the empty string,
since `encryptKey` degrades to `""`), yet `load()` does not return the
saved credential — nor does a second save of it after saving `"A"`. -/
theorem c2_counterexample :
    trimJS [256] ≠ [] ∧
    getItem (handleSave [256] (handleSave [65] emptyStore).store).store
      STORAGE_KEY = some [] ∧
    loadSavedApiKey (handleSave [256] (handleSave [65] emptyStore).store).store
      ≠ [256] := by
  refine ⟨by decide, by decide, by decide⟩

/-- C2 amended: for every credential saved via the Save operation
(non-blank, so the guard passes) whose code units and their XOR with the
salt keystream lie in the byte range, the Persisted Record decodes to
exactly that credential, so `load()` returns it; in particular
`save a; save b` leaves `load() = b` for such `b`. -/
theorem c2_persisted_record_overwrite (a b : Str) (st : LocalStorage)
    (hb : trimJS b ≠ []) (h1 : ∀ x ∈ b, x < 256)
    (h2 : ∀ x ∈ xorSalt 0 b, x < 256) :
    loadSavedApiKey (handleSave b st).store = b ∧
    loadSavedApiKey (handleSave b (handleSave a st).store).store = b :=
  ⟨load_handleSave b st hb h2, load_handleSave b (handleSave a st).store hb h2⟩

/-- Witness for the amended C2: `save "oldKey"; save "newKey1"` leaves
`load() = "newKey1"`. -/
theorem c2_witness :
    trimJS (strCodes "newKey1") ≠ [] ∧
    (∀ x ∈ strCodes "newKey1", x < 256) ∧
    (∀ x ∈ xorSalt 0 (strCodes "newKey1"), x < 256) ∧
    (loadSavedApiKey (handleSave (strCodes "newKey1") emptyStore).store =
        strCodes "newKey1" ∧
      loadSavedApiKey (handleSave (strCodes "newKey1")
        (handleSave (strCodes "oldKey") emptyStore).store).store =
        strCodes "newKey1") :=
  ⟨by decide, by decide, by decide,
    c2_persisted_record_overwrite (strCodes "oldKey") (strCodes "newKey1")
      emptyStore (by decide) (by decide) (by decide)⟩

/-- C8: Row-count clamp.  Every entered value yields an effective row
count of at least 1; entering `"0"` or any non-numeric value yields
exactly 1; add-rows passes the current clamped value through, so entering
`"5"` yields a call with exactly 5. -/
theorem c8_row_count_clamp :
    (∀ v : Str, 1 ≤ rowCountOnChange v) ∧
    rowCountOnChange (strCodes "0") = 1 ∧
    (∀ v : Str, parseIntJS v = none → rowCountOnChange v = 1) ∧
    (∀ n : Int, addRowsClick n = n) ∧
    addRowsClick (rowCountOnChange (strCodes "5")) = 5 := by
  refine ⟨?_, by decide, ?_, fun n => rfl, by decide⟩
  · intro v
    exact le_max_left 1 (jsOrZero (parseIntJS v))
  · intro v hv
    rw [rowCountOnChange, hv]
    rfl

/-- Witness for C8 at the non-numeric input `"abc"`. -/
theorem c8_witness :
    parseIntJS (strCodes "abc") = none ∧ rowCountOnChange (strCodes "abc") = 1 :=
  ⟨by decide, c8_row_count_clamp.2.2.1 (strCodes "abc") (by decide)⟩

/-- C9: For every non-blank credential on which `encryptKey` fails
internally and degrades to the empty string, `handleSave` still writes
that empty string under the fixed key, still calls `updateApiKey` with
the plaintext credential, still sets `success` (the error branch is not
taken), and a subsequent `load()` returns the empty string instead of the
credential. -/
theorem c9_save_transform_failure (s : Str) (st : LocalStorage)
    (h : trimJS s ≠ []) (he : encryptKey s = []) :
    getItem (handleSave s st).store STORAGE_KEY = some [] ∧
    (handleSave s st).updateApiKeyCalls = [s] ∧
    (handleSave s st).trace = [(Status.success, msgSavedSecurely)] ∧
    loadSavedApiKey (handleSave s st).store = [] := by
  have hs : (handleSave s st).store = setItem st STORAGE_KEY (encryptKey s) := by
    rw [handleSave, if_neg h]
  have hg : getItem (handleSave s st).store STORAGE_KEY = some [] := by
    rw [hs, he, getItem, setItem, if_pos rfl]
  refine ⟨hg, ?_, ?_, ?_⟩
  · rw [handleSave, if_neg h]
  · rw [handleSave, if_neg h]
  · rw [loadSavedApiKey, hg]
    decide

/-- Witness for C9 at the credential `[256]` (one character above the
byte range). -/
theorem c9_witness :
    trimJS [256] ≠ [] ∧ encryptKey [256] = [] ∧
    (getItem (handleSave [256] emptyStore).store STORAGE_KEY = some [] ∧
      (handleSave [256] emptyStore).updateApiKeyCalls = [[256]] ∧
      (handleSave [256] emptyStore).trace = [(Status.success, msgSavedSecurely)] ∧
      loadSavedApiKey (handleSave [256] emptyStore).store = []) :=
  ⟨by decide, by decide,
    c9_save_transform_failure [256] emptyStore (by decide) (by decide)⟩

/-- C10: `load()` returns the empty string in three mutually
indistinguishable situations: no record under the fixed key, a stored
empty-string record, and a stored record on which decoding raises. -/
theorem c10_load_indistinguishable (st : LocalStorage) (r : Str)
    (h0 : getItem st STORAGE_KEY = none) (h : atob r = none) :
    loadSavedApiKey st = [] ∧
    loadSavedApiKey (setItem st STORAGE_KEY []) = [] ∧
    loadSavedApiKey (setItem st STORAGE_KEY r) = [] := by
  refine ⟨?_, ?_, ?_⟩
  · rw [loadSavedApiKey, h0]
  · rw [loadSavedApiKey, getItem, setItem, if_pos rfl]
    decide
  · rw [loadSavedApiKey, getItem, setItem, if_pos rfl]
    by_cases hr : r = []
    · simp [hr]
    · simp only [hr, ne_eq, not_false_iff, if_true, reduceIte]
      rw [decryptKey, h]

/-- Witness for C10 with the empty store and the invalid Base64 record
`"!"`. -/
theorem c10_witness :
    getItem emptyStore STORAGE_KEY = none ∧ atob (strCodes "!") = none ∧
    (loadSavedApiKey emptyStore = [] ∧
      loadSavedApiKey (setItem emptyStore STORAGE_KEY []) = [] ∧
      loadSavedApiKey (setItem emptyStore STORAGE_KEY (strCodes "!")) = []) :=
  ⟨by decide, by decide,
    c10_load_indistinguishable emptyStore (strCodes "!") (by decide) (by decide)⟩
